import Mathlib

/-!
Verification of the Fabric-Healthcare chaincode (Go, Hyperledger Fabric).

Shallow embedding notes:
- Go strings are modelled as lists of characters (GoStr).
- Go maps are modelled as association lists with first-match lookup;
  insertion replaces the first entry with the same key, deletion removes it.
  Go's randomized map iteration order is determinized to list order
  (no settled claim depends on the order).
- The Fabric ledger stub (PutState/GetState) always succeeds and mirrors the
  in-process maps, so the in-process maps are the single source of truth and
  world-state writes are not modelled separately.
- float64 prices are modelled as rationals; the fmt %.2f rendering used only
  inside trace-code generation is modelled as fixed two-decimal rendering.
- math/rand nonces and time.Now production times are threaded as explicit
  parameters.
- A Go function returning (T, error) becomes Except Err (T x State); an error
  return performs no state mutation in the source, so the caller's state is
  unchanged exactly when the result is an error.
-/

namespace Fabric

/-- Go string, modelled as its list of characters. -/
abbrev GoStr := List Char

/-- First-match lookup in an association list (Go map read m[k]). -/
def mlook {κ α : Type} [DecidableEq κ] : List (κ × α) → κ → Option α
  | [], _ => none
  | (k', v) :: t, k => if k' = k then some v else mlook t k

/-- Insert or replace (Go map write m[k] = v): replaces the first entry with
key k, else appends at the end. -/
def mins {κ α : Type} [DecidableEq κ] : List (κ × α) → κ → α → List (κ × α)
  | [], k, v => [(k, v)]
  | (k', v') :: t, k, v => if k' = k then (k, v) :: t else (k', v') :: mins t k v

/-- Delete the first entry with key k (Go delete(m, k)). -/
def mdel {κ α : Type} [DecidableEq κ] : List (κ × α) → κ → List (κ × α)
  | [], _ => []
  | (k', v) :: t, k => if k' = k then t else (k', v) :: mdel t k

theorem mlook_mins_self {κ α : Type} [DecidableEq κ] (m : List (κ × α)) (k : κ) (v : α) :
    mlook (mins m k v) k = some v := by
  induction m with
  | nil => simp [mins, mlook]
  | cons e t ih =>
    obtain ⟨k', v'⟩ := e
    by_cases h : k' = k
    · simp [mins, h, mlook]
    · simp [mins, h, mlook, ih]

theorem mlook_mins_ne {κ α : Type} [DecidableEq κ] (m : List (κ × α)) (k k' : κ) (v : α)
    (h : k' ≠ k) : mlook (mins m k v) k' = mlook m k' := by
  induction m with
  | nil => simp [mins, mlook, Ne.symm h]
  | cons e t ih =>
    obtain ⟨k₀, v₀⟩ := e
    by_cases h0 : k₀ = k
    · subst h0
      simp [mins, mlook, Ne.symm h]
    · simp only [mins, if_neg h0, mlook]
      by_cases h1 : k₀ = k'
      · simp [h1]
      · simp [h1, ih]

theorem mins_eq_self {κ α : Type} [DecidableEq κ] (m : List (κ × α)) (k : κ) (v : α)
    (h : mlook m k = some v) : mins m k v = m := by
  induction m with
  | nil => simp [mlook] at h
  | cons e t ih =>
    obtain ⟨k', v'⟩ := e
    by_cases h0 : k' = k
    · subst h0
      simp [mlook] at h
      simp [mins, h]
    · simp [mlook, h0] at h
      simp [mins, h0, ih h]

theorem mem_of_mem_mdel {κ α : Type} [DecidableEq κ] (m : List (κ × α)) (k : κ)
    (e : κ × α) (h : e ∈ mdel m k) : e ∈ m := by
  induction m with
  | nil => simp [mdel] at h
  | cons e' t ih =>
    obtain ⟨k', v'⟩ := e'
    by_cases h0 : k' = k
    · simp only [mdel, if_pos h0] at h
      exact List.mem_cons_of_mem _ h
    · simp only [mdel, if_neg h0, List.mem_cons] at h
      rcases h with h | h
      · exact h ▸ List.mem_cons_self _ _
      · exact List.mem_cons_of_mem _ (ih h)

theorem mlook_none_iff {κ α : Type} [DecidableEq κ] (m : List (κ × α)) (k : κ) :
    mlook m k = none ↔ ∀ e ∈ m, e.1 ≠ k := by
  induction m with
  | nil => simp [mlook]
  | cons e t ih =>
    obtain ⟨k', v'⟩ := e
    by_cases h0 : k' = k
    · subst h0
      simp [mlook]
    · simp [mlook, h0, ih]

theorem mlook_isSome_iff {κ α : Type} [DecidableEq κ] (m : List (κ × α)) (k : κ) :
    (∃ v, mlook m k = some v) ↔ ∃ e ∈ m, e.1 = k := by
  induction m with
  | nil => simp [mlook]
  | cons e t ih =>
    obtain ⟨k', v'⟩ := e
    by_cases h0 : k' = k
    · subst h0
      simp [mlook]
    · simp [mlook, h0, ih]

theorem mlook_some_mem {κ α : Type} [DecidableEq κ] (m : List (κ × α)) (k : κ) (v : α)
    (h : mlook m k = some v) : (k, v) ∈ m := by
  induction m with
  | nil => simp [mlook] at h
  | cons e t ih =>
    obtain ⟨k', v'⟩ := e
    by_cases h0 : k' = k
    · subst h0
      simp [mlook] at h
      simp [h]
    · simp [mlook, h0] at h
      exact List.mem_cons_of_mem _ (ih h)

theorem mins_length_fresh {κ α : Type} [DecidableEq κ] (m : List (κ × α)) (k : κ) (v : α)
    (h : mlook m k = none) : (mins m k v).length = m.length + 1 := by
  induction m with
  | nil => simp [mins]
  | cons e t ih =>
    obtain ⟨k', v'⟩ := e
    by_cases h0 : k' = k
    · simp [mlook, h0] at h
    · simp [mlook, h0] at h
      simp [mins, h0, ih h]

/-- Go strings.Split on a one-character separator: splits at every occurrence,
keeping empty fields, always returning at least one field. -/
def splitOnChar (sep : Char) : GoStr → List GoStr
  | [] => [[]]
  | c :: rest =>
    let r := splitOnChar sep rest
    if c = sep then [] :: r
    else
      match r with
      | [] => [[c]]
      | h :: t => (c :: h) :: t

theorem splitOnChar_ne_nil (sep : Char) (s : GoStr) : splitOnChar sep s ≠ [] := by
  induction s with
  | nil => simp [splitOnChar]
  | cons c rest ih =>
    simp only [splitOnChar]
    by_cases h : c = sep
    · simp [h]
    · simp only [if_neg h]
      match hr : splitOnChar sep rest with
      | [] => simp
      | h₀ :: t => simp

theorem splitOnChar_no_sep (sep : Char) (s : GoStr) (h : sep ∉ s) :
    splitOnChar sep s = [s] := by
  induction s with
  | nil => simp [splitOnChar]
  | cons c rest ih =>
    have hc : c ≠ sep := fun hh => h (hh ▸ List.mem_cons_self _ _)
    have hrest : sep ∉ rest := fun hh => h (List.mem_cons_of_mem _ hh)
    simp only [splitOnChar, if_neg hc, ih hrest]

theorem splitOnChar_append (sep : Char) (a rest : GoStr) (h : sep ∉ a) :
    splitOnChar sep (a ++ sep :: rest) = a :: splitOnChar sep rest := by
  induction a with
  | nil => simp [splitOnChar]
  | cons c a' ih =>
    have hc : c ≠ sep := fun hh => h (hh ▸ List.mem_cons_self _ _)
    have ha' : sep ∉ a' := fun hh => h (List.mem_cons_of_mem _ hh)
    simp only [List.cons_append, splitOnChar, if_neg hc, List.append_eq, ih ha']

/-- Decimal digits of n, most significant first, with structural fuel so the
definition computes by kernel reduction. -/
def natCharsAux : Nat → Nat → GoStr
  | 0, _ => []
  | fuel + 1, n =>
    if n = 0 then [] else natCharsAux fuel (n / 10) ++ [Nat.digitChar (n % 10)]

/-- Decimal rendering of a natural number, as produced by fmt %d for the
non-negative values returned by math/rand Int. -/
def natChars (n : Nat) : GoStr :=
  if n = 0 then ['0'] else natCharsAux n n

theorem digitChar_ne_dash {d : Nat} (h : d < 10) : Nat.digitChar d ≠ '-' := by
  interval_cases d <;> decide

theorem dash_not_mem_natCharsAux (fuel : Nat) : ∀ n, '-' ∉ natCharsAux fuel n := by
  induction fuel with
  | zero => intro n; simp [natCharsAux]
  | succ f ih =>
    intro n
    by_cases h : n = 0
    · simp [natCharsAux, h]
    · simp only [natCharsAux, if_neg h, List.mem_append, List.mem_singleton]
      rintro (h1 | h2)
      · exact ih _ h1
      · exact digitChar_ne_dash (Nat.mod_lt _ (by norm_num)) h2.symm

theorem dash_not_mem_natChars (n : Nat) : '-' ∉ natChars n := by
  unfold natChars
  by_cases h : n = 0
  · simp [h]
  · simpa [if_neg h] using dash_not_mem_natCharsAux n n

/-- Numeric value of a list of decimal digit characters. -/
def digitsVal (s : GoStr) : Nat :=
  s.foldl (fun acc c => 10 * acc + (c.toNat - '0'.toNat)) 0

/-- Model of strconv.ParseFloat for the decimal numeric strings this system
produces: an optional fraction part after one dot, at least one digit in
total. Go's ParseFloat additionally accepts exponent, hex and Inf and NaN
forms, none of which arise from the price fields at hand. -/
def parseNum (s : GoStr) : Option Rat :=
  match splitOnChar '.' s with
  | [a] =>
    if a ≠ [] ∧ a.all (fun c => c.isDigit) then some (mkRat (digitsVal a) 1) else none
  | [a, b] =>
    if (a ++ b) ≠ [] ∧ (a ++ b).all (fun c => c.isDigit) then
      some (mkRat (digitsVal (a ++ b)) ((10 : Nat) ^ b.length))
    else none
  | _ => none

/-- Fixed two-decimal rendering of a non-negative rational price, modelling
the fmt %.2f formatting applied to the float64 price inside ProduceDrug.
The binary-float round-half-even at the third decimal is replaced by
truncation; no settled claim depends on that digit. -/
def priceRepr (q : Rat) : GoStr :=
  let cents : Nat := q.num.toNat * 100 / q.den
  natChars (cents / 100) ++
    '.' :: (if cents % 100 < 10 then '0' :: natChars (cents % 100) else natChars (cents % 100))

/-- Error taxonomy: one constructor per distinct Go error return of the
chaincode. The several not-found messages (hospital, manufacturer, patient,
patient not in roster, drug traced but absent everywhere, report) all map to
notFound, matching the spec's NotFoundError family. -/
inductive Err : Type
  | alreadyExists
  | notFound
  | drugNotAvailable
  | duplicateDrug
  | malformedCode
  | invalidPrice
deriving DecidableEq, Repr

/-- Patient of patient.go / part_002: demographic record in the global
patient registry. -/
structure Patient where
  Name : GoStr
  BirthDate : GoStr
  Height : Rat
  Weight : Rat
  Gender : GoStr
  Contact : GoStr
deriving DecidableEq, Repr

/-- ManufacturerDrug, unified across the repository's variants: the
part_005 and draft manufacturer.go declarations carry InStock, the chaincode
manufacturer.go declaration omits it; operations translated from the latter
never read the flag. -/
structure ManufacturerDrug where
  Name : GoStr
  TraceCode : GoStr
  Manufacturer : GoStr
  Price : Rat
  ProductionTime : GoStr
  InStock : Bool
deriving DecidableEq, Repr

/-- Manufacturer aggregate of manufacturer.go / part_005. The process-local
sync.Mutex is not part of the data. -/
structure Manufacturer where
  Name : GoStr
  Inventory : List (GoStr × ManufacturerDrug)
  Contact : GoStr
  Channels : List (GoStr × Bool)
deriving DecidableEq, Repr

/-- HospitalDrug. The declaration in hospital.go has Name, TraceCode and
HospitalName; the part_002 PatientContract additionally reads and writes an
InStock flag on hospital inventory records, whose matching declaration is not
in src. Modelled from the spec: drug unit state carries an in-stock flag
(data model section, drug unit). -/
structure HospitalDrug where
  Name : GoStr
  TraceCode : GoStr
  HospitalName : GoStr
  InStock : Bool
deriving DecidableEq, Repr

/-- MedicalReport of hospital.go. Report IDs are positive ints, modelled as
Nat. -/
structure MedicalReport where
  ID : Nat
  PatientName : GoStr
  Symptoms : GoStr
  NeededDrugs : List GoStr
deriving DecidableEq, Repr

/-- Hospital aggregate of hospital.go: roster maps patient name to patient
name. The process-local sync.Mutex is not part of the data. -/
structure Hospital where
  Name : GoStr
  Contact : GoStr
  Reports : List (Nat × MedicalReport)
  Inventory : List (GoStr × HospitalDrug)
  Patients : List (GoStr × GoStr)
  Channels : List (GoStr × Bool)
deriving DecidableEq, Repr

/-- DrugInfoPatient of part_002, returned by TraceDrug. -/
structure DrugInfoPatient where
  Name : GoStr
  TraceCode : GoStr
  Manufacturer : GoStr
  Price : Rat
  ProductionTime : GoStr
  HospitalName : GoStr
deriving DecidableEq, Repr

/-- The three package-level registries (global maps manufacturers, hospitals,
patients). -/
structure ChainState where
  manufacturers : List (GoStr × Manufacturer)
  hospitals : List (GoStr × Hospital)
  patients : List (GoStr × Patient)
deriving DecidableEq, Repr

/-- The empty initial state of the three global maps. -/
def emptyState : ChainState := ⟨[], [], []⟩

/-- GenerateTraceCode of utils.go: Sprintf of the four fields and a random
nonce, separated by dashes; the nonce is threaded explicitly. -/
def GenerateTraceCode (drugName manufacturer price productionTime : GoStr)
    (nonce : Nat) : GoStr :=
  drugName ++ '-' :: (manufacturer ++ '-' :: (price ++ '-' ::
    (productionTime ++ '-' :: natChars nonce)))

/-- DecodeTraceCode of utils.go: split on the dash, require at least five
fields, parse the price field numerically. -/
def DecodeTraceCode (traceCode : GoStr) :
    Except Err (GoStr × GoStr × Rat × GoStr) :=
  match splitOnChar '-' traceCode with
  | dn :: mf :: pr :: pt :: _ :: _ =>
    match parseNum pr with
    | some q => .ok (dn, mf, q, pt)
    | none => .error .invalidPrice
  | _ => .error .malformedCode

/-- CreatePatient of patient.go / part_002: reject duplicate names, register
the demographic record. -/
def CreatePatient (st : ChainState) (name birthDate : GoStr) (height weight : Rat)
    (gender contact : GoStr) : Except Err ChainState :=
  match mlook st.patients name with
  | some _ => .error .alreadyExists
  | none =>
    .ok { st with patients := (mins st.patients name
      ⟨name, birthDate, height, weight, gender, contact⟩) }

/-- CreateManufacturer of part_005 / chaincode manufacturer.go: reject
duplicate names, register with empty inventory and channels. -/
def CreateManufacturer (st : ChainState) (name contact : GoStr) :
    Except Err ChainState :=
  match mlook st.manufacturers name with
  | some _ => .error .alreadyExists
  | none =>
    .ok { st with manufacturers := mins st.manufacturers name ⟨name, [], contact, []⟩ }

/-- CreateHospital of hospital.go: reject duplicate names, register with
empty reports, inventory, roster and channels. -/
def CreateHospital (st : ChainState) (name contact : GoStr) :
    Except Err ChainState :=
  match mlook st.hospitals name with
  | some _ => .error .alreadyExists
  | none =>
    .ok { st with hospitals := mins st.hospitals name ⟨name, contact, [], [], [], []⟩ }

/-- ProduceDrug of part_005: manufacturer must exist, drug name must not
already key an inventory entry, then a record with a fresh trace code and
InStock true is inserted under the drug name. Production time and the random
nonce are threaded explicitly. -/
def ProduceDrug (st : ChainState) (manufacturerName drugName : GoStr) (price : Rat)
    (productionTime : GoStr) (nonce : Nat) : Except Err (GoStr × ChainState) :=
  match mlook st.manufacturers manufacturerName with
  | none => .error .notFound
  | some m =>
    match mlook m.Inventory drugName with
    | some _ => .error .duplicateDrug
    | none =>
      let traceCode := GenerateTraceCode drugName manufacturerName (priceRepr price)
        productionTime nonce
      let drug : ManufacturerDrug :=
        ⟨drugName, traceCode, manufacturerName, price, productionTime, true⟩
      .ok (traceCode, { st with manufacturers := (mins st.manufacturers manufacturerName
        { m with Inventory := mins m.Inventory drugName drug }) })

/-- First inventory entry whose record's drug name matches, in iteration
order; models the range loop of RemoveDrugFromMnfcInventory. -/
def mfindByName (inv : List (GoStr × ManufacturerDrug)) (drugName : GoStr) :
    Option (GoStr × ManufacturerDrug) :=
  match inv with
  | [] => none
  | e :: t => if e.2.Name = drugName then some e else mfindByName t drugName

/-- RemoveDrugFromMnfcInventory of chaincode manufacturer.go: scan the
inventory for an entry whose record has the requested drug name, delete it by
its key, and return that key. -/
def RemoveDrugFromMnfcInventory (st : ChainState) (manufacturerName drugName : GoStr) :
    Except Err (GoStr × ChainState) :=
  match mlook st.manufacturers manufacturerName with
  | none => .error .notFound
  | some m =>
    match mfindByName m.Inventory drugName with
    | none => .error .drugNotAvailable
    | some (k, _) =>
      .ok (k, { st with manufacturers := (mins st.manufacturers manufacturerName
        { m with Inventory := mdel m.Inventory k }) })

/-- AddDrugToHospitalInventory of hospital.go: hospital must exist; the
record is inserted keyed by the trace code. The source record literal has no
in-stock field; the flag is modelled from the spec: a unit arriving at a
hospital is in stock until sold. -/
def AddDrugToHospitalInventory (st : ChainState) (hospitalName drugName traceCode : GoStr) :
    Except Err ChainState :=
  match mlook st.hospitals hospitalName with
  | none => .error .notFound
  | some hospital =>
    .ok { st with hospitals := (mins st.hospitals hospitalName
      { hospital with Inventory := (mins hospital.Inventory traceCode
        ⟨drugName, traceCode, hospitalName, true⟩) }) }

/-- CreatePatientRecord of hospital.go: hospital must exist; the patient name
is written into the roster under itself. No global patient registry check is
performed by this source function. -/
def CreatePatientRecord (st : ChainState) (hospitalName patientName : GoStr) :
    Except Err ChainState :=
  match mlook st.hospitals hospitalName with
  | none => .error .notFound
  | some hospital =>
    .ok { st with hospitals := (mins st.hospitals hospitalName
      { hospital with Patients := mins hospital.Patients patientName patientName }) }

/-- ModifyReport of hospital.go: hospital must exist and the patient must be
in its roster; the report gets ID = report count + 1 and is stored under that
ID. -/
def ModifyReport (st : ChainState) (hospitalName patientName symptoms : GoStr)
    (neededDrugs : List GoStr) : Except Err (Nat × ChainState) :=
  match mlook st.hospitals hospitalName with
  | none => .error .notFound
  | some hospital =>
    match mlook hospital.Patients patientName with
    | none => .error .notFound
    | some _ =>
      let reportID := hospital.Reports.length + 1
      let report : MedicalReport := ⟨reportID, patientName, symptoms, neededDrugs⟩
      .ok (reportID, { st with hospitals := (mins st.hospitals hospitalName
        { hospital with Reports := mins hospital.Reports reportID report }) })

/-- BuyDrug of the part_002 PatientContract: hospital must exist, the drug is
looked up in the hospital inventory by drug name and must be in stock; the
record's in-stock flag is then cleared in place (the part_002 variant keeps
the sold unit recorded at the hospital) and the trace code is returned. -/
def BuyDrug (st : ChainState) (patientName hospitalName drugName : GoStr) :
    Except Err (GoStr × ChainState) :=
  match mlook st.hospitals hospitalName with
  | none => .error .notFound
  | some hospital =>
    match mlook hospital.Inventory drugName with
    | some drug =>
      if drug.InStock then
        .ok (drug.TraceCode, { st with hospitals := (mins st.hospitals hospitalName
          { hospital with Inventory := (mins hospital.Inventory drugName
            { drug with InStock := false }) }) })
      else .error .drugNotAvailable
    | none => .error .drugNotAvailable

/-- Whether a hospital inventory holds a record with the given trace code, in
iteration order; models the inner range loop of TraceDrug. -/
def invHasCode (inv : List (GoStr × HospitalDrug)) (code : GoStr) : Bool :=
  match inv with
  | [] => false
  | e :: t => if e.2.TraceCode = code then true else invHasCode t code

/-- Name of the first hospital whose inventory holds a record with the given
trace code; models the outer range loop of TraceDrug. -/
def findHospWithCode (hs : List (GoStr × Hospital)) (code : GoStr) : Option GoStr :=
  match hs with
  | [] => none
  | (_, hospital) :: t =>
    if invHasCode hospital.Inventory code then some hospital.Name
    else findHospWithCode t code

/-- TraceDrug of the part_002 PatientContract: decode the code, then scan all
hospital inventories for a record with that trace code; report the decoded
fields with that hospital's name, or a not-found error when no inventory
holds the code. -/
def TraceDrug (st : ChainState) (traceCode : GoStr) : Except Err DrugInfoPatient :=
  match DecodeTraceCode traceCode with
  | .error e => .error e
  | .ok (drugName, manufacturerName, price, productionTime) =>
    match findHospWithCode st.hospitals traceCode with
    | some hn => .ok ⟨drugName, traceCode, manufacturerName, price, productionTime, hn⟩
    | none => .error .notFound

/-- GetPatients of the part_002 PatientContract: iterates the manufacturers
registry, not the patient registry, and returns its keys. -/
def GetPatients (st : ChainState) : List GoStr :=
  st.manufacturers.map Prod.fst

/-- C3: for all drug name, manufacturer, numeric price string and production
time containing no dash, decoding the generated trace code succeeds and
returns exactly the four encoded fields, with the price read back at its
numeric value, for every value of the random nonce. -/
theorem c3_codec_roundtrip (d m p t : GoStr) (nonce : Nat) (q : Rat)
    (hd : '-' ∉ d) (hm : '-' ∉ m) (hp : '-' ∉ p) (ht : '-' ∉ t)
    (hq : parseNum p = some q) :
    DecodeTraceCode (GenerateTraceCode d m p t nonce) = .ok (d, m, q, t) := by
  have hsplit : splitOnChar '-' (GenerateTraceCode d m p t nonce)
      = [d, m, p, t, natChars nonce] := by
    unfold GenerateTraceCode
    rw [splitOnChar_append _ _ _ hd, splitOnChar_append _ _ _ hm,
        splitOnChar_append _ _ _ hp, splitOnChar_append _ _ _ ht,
        splitOnChar_no_sep _ _ (dash_not_mem_natChars nonce)]
  unfold DecodeTraceCode
  rw [hsplit]
  simp only [hq]

/-- Witness for C3 at concrete inputs. -/
theorem c3_witness :
    DecodeTraceCode (GenerateTraceCode "asp".toList "acme".toList "9.99".toList
      "2024".toList 7) = .ok ("asp".toList, "acme".toList, mkRat 999 100, "2024".toList) :=
  c3_codec_roundtrip "asp".toList "acme".toList "9.99".toList "2024".toList 7
    (mkRat 999 100) (by decide) (by decide) (by decide) (by decide) (by decide)

/-- C5: for each entity kind, after a successful creation under a name, a
second creation call with the same name returns the already-exists error, and
the entity stored by the first call is still registered with exactly the data
the first call stored (an error return performs no mutation). -/
theorem c5_duplicate_create (st : ChainState) (name : GoStr) :
    (∀ c c2 st1, mlook st.manufacturers name = none →
      CreateManufacturer st name c = .ok st1 →
      CreateManufacturer st1 name c2 = .error .alreadyExists ∧
      mlook st1.manufacturers name = some ⟨name, [], c, []⟩) ∧
    (∀ c c2 st1, mlook st.hospitals name = none →
      CreateHospital st name c = .ok st1 →
      CreateHospital st1 name c2 = .error .alreadyExists ∧
      mlook st1.hospitals name = some ⟨name, c, [], [], [], []⟩) ∧
    (∀ bd h w g c bd2 h2 w2 g2 c2 st1, mlook st.patients name = none →
      CreatePatient st name bd h w g c = .ok st1 →
      CreatePatient st1 name bd2 h2 w2 g2 c2 = .error .alreadyExists ∧
      mlook st1.patients name = some ⟨name, bd, h, w, g, c⟩) := by
  refine ⟨?_, ?_, ?_⟩
  · intro c c2 st1 hnone hok
    simp only [CreateManufacturer, hnone] at hok
    cases hok
    have hl : mlook (mins st.manufacturers name ⟨name, [], c, []⟩) name
        = some ⟨name, [], c, []⟩ := mlook_mins_self _ _ _
    exact ⟨by simp only [CreateManufacturer, hl], hl⟩
  · intro c c2 st1 hnone hok
    simp only [CreateHospital, hnone] at hok
    cases hok
    have hl : mlook (mins st.hospitals name ⟨name, c, [], [], [], []⟩) name
        = some ⟨name, c, [], [], [], []⟩ := mlook_mins_self _ _ _
    exact ⟨by simp only [CreateHospital, hl], hl⟩
  · intro bd h w g c bd2 h2 w2 g2 c2 st1 hnone hok
    simp only [CreatePatient, hnone] at hok
    cases hok
    have hl : mlook (mins st.patients name ⟨name, bd, h, w, g, c⟩) name
        = some ⟨name, bd, h, w, g, c⟩ := mlook_mins_self _ _ _
    exact ⟨by simp only [CreatePatient, hl], hl⟩

/-- Witness for C5 at a concrete state: create, then re-create, a
manufacturer, a hospital and a patient named n starting from the empty
state. -/
theorem c5_witness :
    (CreateManufacturer
        ⟨[("n".toList, ⟨"n".toList, [], "c1".toList, []⟩)], [], []⟩
        "n".toList "c2".toList = .error .alreadyExists ∧
      mlook [("n".toList, (⟨"n".toList, [], "c1".toList, []⟩ : Manufacturer))]
        "n".toList = some ⟨"n".toList, [], "c1".toList, []⟩) ∧
    (CreateHospital
        ⟨[], [("n".toList, ⟨"n".toList, "c1".toList, [], [], [], []⟩)], []⟩
        "n".toList "c2".toList = .error .alreadyExists ∧
      mlook [("n".toList, (⟨"n".toList, "c1".toList, [], [], [], []⟩ : Hospital))]
        "n".toList = some ⟨"n".toList, "c1".toList, [], [], [], []⟩) ∧
    (CreatePatient
        ⟨[], [], [("n".toList, ⟨"n".toList, "b".toList, 1, 1, "g".toList, "c1".toList⟩)]⟩
        "n".toList "b2".toList 2 2 "g2".toList "c2".toList = .error .alreadyExists ∧
      mlook [("n".toList, (⟨"n".toList, "b".toList, 1, 1, "g".toList, "c1".toList⟩ : Patient))]
        "n".toList = some ⟨"n".toList, "b".toList, 1, 1, "g".toList, "c1".toList⟩) :=
  ⟨(c5_duplicate_create emptyState "n".toList).1 "c1".toList "c2".toList _ rfl rfl,
   (c5_duplicate_create emptyState "n".toList).2.1 "c1".toList "c2".toList _ rfl rfl,
   (c5_duplicate_create emptyState "n".toList).2.2 "b".toList 1 1 "g".toList "c1".toList
     "b2".toList 2 2 "g2".toList "c2".toList _ rfl rfl⟩

/-- C10: the part_002 GetPatients returns exactly the names registered in
the global manufacturers map, not the patient registry: its result is
independent of the patients map and is empty whenever no manufacturer is
registered, even right after patients were created. -/
theorem c10_getPatients (st : ChainState) :
    (∀ n, n ∈ GetPatients st ↔ ∃ e ∈ st.manufacturers, e.1 = n) ∧
    (st.manufacturers = [] → GetPatients st = []) ∧
    (∀ name bd h w g c st1, CreatePatient st name bd h w g c = .ok st1 →
      st1.manufacturers = st.manufacturers ∧ GetPatients st1 = GetPatients st) := by
  refine ⟨?_, ?_, ?_⟩
  · intro n
    unfold GetPatients
    constructor
    · intro hn
      rcases List.mem_map.mp hn with ⟨e, he, hn⟩
      exact ⟨e, he, hn⟩
    · rintro ⟨e, he, hn⟩
      exact List.mem_map.mpr ⟨e, he, hn⟩
  · intro h; simp [GetPatients, h]
  · intro name bd h w g c st1 hok
    rcases hlook : mlook st.patients name with _ | p
    · simp only [CreatePatient, hlook] at hok
      cases hok
      exact ⟨rfl, rfl⟩
    · simp [CreatePatient, hlook] at hok

/-- Witness for C10: in a state holding one patient and no manufacturer,
GetPatients returns the empty list. -/
theorem c10_witness :
    GetPatients ⟨[], [],
      [("al".toList, ⟨"al".toList, "b".toList, 1, 1, "g".toList, "c".toList⟩)]⟩ = [] :=
  (c10_getPatients ⟨[], [],
    [("al".toList, ⟨"al".toList, "b".toList, 1, 1, "g".toList, "c".toList⟩)]⟩).2.1 rfl

theorem mem_mins {κ α : Type} [DecidableEq κ] (m : List (κ × α)) (k : κ) (v : α)
    (e : κ × α) (h : e ∈ mins m k v) : e = (k, v) ∨ e ∈ m := by
  induction m with
  | nil => simpa [mins] using h
  | cons e' t ih =>
    obtain ⟨k', v'⟩ := e'
    by_cases h0 : k' = k
    · simp only [mins, if_pos h0, List.mem_cons] at h
      rcases h with h | h
      · exact Or.inl h
      · exact Or.inr (List.mem_cons_of_mem _ h)
    · simp only [mins, if_neg h0, List.mem_cons] at h
      rcases h with h | h
      · exact Or.inr (h ▸ List.mem_cons_self _ _)
      · rcases ih h with h | h
        · exact Or.inl h
        · exact Or.inr (List.mem_cons_of_mem _ h)

/-- Invariant of the part_005 manufacturer variant: every inventory entry a
manufacturer ever holds is in stock, because ProduceDrug is the only
operation inserting entries there and always sets the flag. -/
def AllInStock (st : ChainState) : Prop :=
  ∀ e ∈ st.manufacturers, ∀ d ∈ e.2.Inventory, d.2.InStock = true

theorem allInStock_empty : AllInStock emptyState := by
  intro e he
  simp [emptyState] at he

theorem allInStock_createManufacturer (st st1 : ChainState) (name contact : GoStr)
    (hinv : AllInStock st) (hok : CreateManufacturer st name contact = .ok st1) :
    AllInStock st1 := by
  rcases hlook : mlook st.manufacturers name with _ | m
  · simp only [CreateManufacturer, hlook] at hok
    cases hok
    intro e he d hd
    rcases mem_mins _ _ _ _ he with he | he
    · subst he; simp at hd
    · exact hinv e he d hd
  · simp [CreateManufacturer, hlook] at hok

theorem allInStock_produceDrug (st : ChainState) (mn dn : GoStr) (price : Rat)
    (pt : GoStr) (nonce : Nat) (c : GoStr) (st1 : ChainState)
    (hinv : AllInStock st) (hok : ProduceDrug st mn dn price pt nonce = .ok (c, st1)) :
    AllInStock st1 := by
  rcases hlook : mlook st.manufacturers mn with _ | m
  · simp [ProduceDrug, hlook] at hok
  · rcases hdrug : mlook m.Inventory dn with _ | dr
    · simp only [ProduceDrug, hlook, hdrug] at hok
      cases hok
      intro e he d hd
      rcases mem_mins _ _ _ _ he with he | he
      · subst he
        rcases mem_mins _ _ _ _ hd with hd | hd
        · subst hd; rfl
        · exact hinv _ (mlook_some_mem _ _ _ hlook) d hd
      · exact hinv e he d hd
    · simp [ProduceDrug, hlook, hdrug] at hok

/-- C6: ProduceDrug fails when the manufacturer is unknown; for a known
manufacturer whose inventory satisfies the variant's invariant that every
entry is in stock, it returns the duplicate-drug error exactly when the drug
name is already an in-stock entry, and otherwise succeeds, returning the
freshly generated trace code and inserting an in-stock record carrying the
given name and price and that code. -/
theorem c6_produceDrug (st : ChainState) (mn dn : GoStr) (price : Rat)
    (pt : GoStr) (nonce : Nat) :
    (mlook st.manufacturers mn = none →
      ProduceDrug st mn dn price pt nonce = .error .notFound) ∧
    (∀ m, mlook st.manufacturers mn = some m →
      (∀ d ∈ m.Inventory, d.2.InStock = true) →
      ((ProduceDrug st mn dn price pt nonce = .error .duplicateDrug ↔
          ∃ dr, mlook m.Inventory dn = some dr ∧ dr.InStock = true) ∧
        (mlook m.Inventory dn = none →
          ∃ st1, ProduceDrug st mn dn price pt nonce =
            .ok (GenerateTraceCode dn mn (priceRepr price) pt nonce, st1) ∧
            ∃ m1, mlook st1.manufacturers mn = some m1 ∧
              mlook m1.Inventory dn = some
                ⟨dn, GenerateTraceCode dn mn (priceRepr price) pt nonce,
                  mn, price, pt, true⟩))) := by
  constructor
  · intro h
    simp [ProduceDrug, h]
  · intro m hm hall
    constructor
    · rcases hdrug : mlook m.Inventory dn with _ | dr
      · simp only [ProduceDrug, hm, hdrug]
        constructor
        · intro h; cases h
        · rintro ⟨dr, hdr, _⟩
          cases hdr
      · simp only [ProduceDrug, hm, hdrug]
        constructor
        · intro _
          exact ⟨dr, rfl, hall _ (mlook_some_mem _ _ _ hdrug)⟩
        · intro _; trivial
    · intro hdrug
      simp only [ProduceDrug, hm, hdrug]
      refine ⟨_, rfl, _, mlook_mins_self _ _ _, ?_⟩
      exact mlook_mins_self _ _ _

/-- Witness for C6: a manufacturer M with empty inventory accepts a first
production of drug a and stores it in stock; the duplicate test then reports
the second attempt. -/
theorem c6_witness :
    (ProduceDrug ⟨[("M".toList, ⟨"M".toList, [], "ct".toList, []⟩)], [], []⟩
        "M".toList "a".toList 1 "t".toList 5 = .error .duplicateDrug ↔
      ∃ dr, mlook ([] : List (GoStr × ManufacturerDrug)) "a".toList = some dr ∧
        dr.InStock = true) ∧
    (∃ st1, ProduceDrug ⟨[("M".toList, ⟨"M".toList, [], "ct".toList, []⟩)], [], []⟩
        "M".toList "a".toList 1 "t".toList 5 =
        .ok (GenerateTraceCode "a".toList "M".toList (priceRepr 1) "t".toList 5, st1) ∧
      ∃ m1, mlook st1.manufacturers "M".toList = some m1 ∧
        mlook m1.Inventory "a".toList = some
          ⟨"a".toList, GenerateTraceCode "a".toList "M".toList (priceRepr 1) "t".toList 5,
            "M".toList, 1, "t".toList, true⟩) := by
  have h := (c6_produceDrug ⟨[("M".toList, ⟨"M".toList, [], "ct".toList, []⟩)], [], []⟩
    "M".toList "a".toList 1 "t".toList 5).2 ⟨"M".toList, [], "ct".toList, []⟩
    rfl (by decide)
  exact ⟨h.1, h.2 rfl⟩

/-- C1: BuyDrug of the part_002 PatientContract fails when the hospital is
unknown; when the drug name keys an in-stock inventory record it succeeds,
returns that record's trace code and leaves the record present with its
in-stock flag cleared; when the drug name keys no record, or only a
not-in-stock one, it fails with the drug-not-available error and, as on
every error return, performs no state change. -/
theorem c1_patient_buyDrug (st : ChainState) (pn hn dn : GoStr) :
    (mlook st.hospitals hn = none → BuyDrug st pn hn dn = .error .notFound) ∧
    (∀ hosp drug, mlook st.hospitals hn = some hosp →
      mlook hosp.Inventory dn = some drug → drug.InStock = true →
      ∃ st1, BuyDrug st pn hn dn = .ok (drug.TraceCode, st1) ∧
        ∃ hosp1, mlook st1.hospitals hn = some hosp1 ∧
          mlook hosp1.Inventory dn = some { drug with InStock := false }) ∧
    (∀ hosp, mlook st.hospitals hn = some hosp →
      (∀ drug, mlook hosp.Inventory dn = some drug → drug.InStock = false) →
      BuyDrug st pn hn dn = .error .drugNotAvailable) := by
  refine ⟨?_, ?_, ?_⟩
  · intro h
    simp [BuyDrug, h]
  · intro hosp drug hh hd hs
    simp only [BuyDrug, hh, hd, hs, if_true]
    refine ⟨_, rfl, _, mlook_mins_self _ _ _, ?_⟩
    exact mlook_mins_self _ _ _
  · intro hosp hh hns
    rcases hd : mlook hosp.Inventory dn with _ | drug
    · simp [BuyDrug, hh, hd]
    · have : drug.InStock = false := hns drug hd
      simp [BuyDrug, hh, hd, this]

/-- Witness for C1: one hospital holding one in-stock unit of drug a; buying
it succeeds with its trace code and leaves the record marked sold, and a
second purchase of the same unit is then refused. -/
theorem c1_witness :
    (∃ st1, BuyDrug ⟨[], [("H".toList, ⟨"H".toList, "c".toList, [], [("a".toList,
        ⟨"a".toList, "tc".toList, "H".toList, true⟩)], [], []⟩)], []⟩
        "p".toList "H".toList "a".toList = .ok ("tc".toList, st1) ∧
      ∃ hosp1, mlook st1.hospitals "H".toList = some hosp1 ∧
        mlook hosp1.Inventory "a".toList =
          some ⟨"a".toList, "tc".toList, "H".toList, false⟩) ∧
    BuyDrug ⟨[], [("H".toList, ⟨"H".toList, "c".toList, [], [("a".toList,
        ⟨"a".toList, "tc".toList, "H".toList, false⟩)], [], []⟩)], []⟩
        "p".toList "H".toList "a".toList = .error .drugNotAvailable := by
  constructor
  · exact (c1_patient_buyDrug ⟨[], [("H".toList, ⟨"H".toList, "c".toList, [], [("a".toList,
      ⟨"a".toList, "tc".toList, "H".toList, true⟩)], [], []⟩)], []⟩
      "p".toList "H".toList "a".toList).2.1 _ _ rfl rfl rfl
  · exact (c1_patient_buyDrug ⟨[], [("H".toList, ⟨"H".toList, "c".toList, [], [("a".toList,
      ⟨"a".toList, "tc".toList, "H".toList, false⟩)], [], []⟩)], []⟩
      "p".toList "H".toList "a".toList).2.2 _ rfl (by decide)

/-- C7: ModifyReport for a patient outside the hospital roster fails with the
not-found error and changes nothing; for an enrolled patient it succeeds with
report ID equal to the current report count plus one and stores the report
with the given fields under that ID; on an empty report map the first call
returns ID 1 and a second call on the resulting state returns ID 2. -/
theorem c7_modifyReport (st : ChainState) (hn pn sy : GoStr) (nd : List GoStr) :
    ∀ hosp, mlook st.hospitals hn = some hosp →
      (mlook hosp.Patients pn = none →
        ModifyReport st hn pn sy nd = .error .notFound) ∧
      (∀ q, mlook hosp.Patients pn = some q →
        ∃ st1, ModifyReport st hn pn sy nd = .ok (hosp.Reports.length + 1, st1) ∧
          ∃ hosp1, mlook st1.hospitals hn = some hosp1 ∧
            mlook hosp1.Reports (hosp.Reports.length + 1) =
              some ⟨hosp.Reports.length + 1, pn, sy, nd⟩) ∧
      (hosp.Reports = [] → ∀ q, mlook hosp.Patients pn = some q →
        ∃ st1, ModifyReport st hn pn sy nd = .ok (1, st1) ∧
          ∀ sy2 nd2, ∃ st2, ModifyReport st1 hn pn sy2 nd2 = .ok (2, st2)) := by
  intro hosp hh
  refine ⟨?_, ?_, ?_⟩
  · intro hp
    simp [ModifyReport, hh, hp]
  · intro q hp
    simp only [ModifyReport, hh, hp]
    refine ⟨_, rfl, _, mlook_mins_self _ _ _, ?_⟩
    exact mlook_mins_self _ _ _
  · intro hrep q hp
    simp only [ModifyReport, hh, hp, hrep, List.length_nil, Nat.zero_add]
    refine ⟨_, rfl, ?_⟩
    intro sy2 nd2
    have hh1 := mlook_mins_self st.hospitals hn
      { hosp with Reports := (mins ([] : List (Nat × MedicalReport)) 1 ⟨1, pn, sy, nd⟩) }
    simp only [ModifyReport, hh1, hp]
    exact ⟨_, rfl⟩

/-- Witness for C7: hospital H with patient p enrolled and no reports: the
rejected call for an unenrolled patient q, then report IDs 1 and 2 for p. -/
theorem c7_witness :
    (ModifyReport ⟨[], [("H".toList, ⟨"H".toList, "c".toList, [], [],
        [("p".toList, "p".toList)], []⟩)], []⟩
        "H".toList "q".toList "s".toList [] = .error .notFound) ∧
    (∃ st1, ModifyReport ⟨[], [("H".toList, ⟨"H".toList, "c".toList, [], [],
        [("p".toList, "p".toList)], []⟩)], []⟩
        "H".toList "p".toList "s".toList [] = .ok (1, st1) ∧
      ∀ sy2 nd2, ∃ st2, ModifyReport st1 "H".toList "p".toList sy2 nd2 = .ok (2, st2)) := by
  constructor
  · exact ((c7_modifyReport ⟨[], [("H".toList, ⟨"H".toList, "c".toList, [], [],
      [("p".toList, "p".toList)], []⟩)], []⟩ "H".toList "q".toList "s".toList []) _
      rfl).1 rfl
  · exact ((c7_modifyReport ⟨[], [("H".toList, ⟨"H".toList, "c".toList, [], [],
      [("p".toList, "p".toList)], []⟩)], []⟩ "H".toList "p".toList "s".toList []) _
      rfl).2.2 rfl "p".toList rfl

/-- Concrete state for the C8 counterexample: one hospital H, an empty
global patient registry. -/
def c8State : ChainState :=
  ⟨[], [("H".toList, ⟨"H".toList, "c".toList, [], [], [], []⟩)], []⟩

/-- C8 counterexample: the claim says enrolling a patient that is absent from
the global registry fails with the not-found error; in the source,
CreatePatientRecord never consults the registry, so with an empty registry it
succeeds and writes the name into the roster. -/
theorem c8_counterexample :
    mlook c8State.patients "alice".toList = none ∧
    CreatePatientRecord c8State "H".toList "alice".toList =
      .ok ⟨[], [("H".toList, ⟨"H".toList, "c".toList, [], [],
        [("alice".toList, "alice".toList)], []⟩)], []⟩ :=
  ⟨rfl, rfl⟩

/-- C8 amended: CreatePatientRecord fails with the not-found error only when
the hospital is unknown; for an existing hospital it succeeds for any patient
name without consulting the global patient registry, writes the name into the
roster, and re-enrolling the same name again succeeds and returns the very
same state. -/
theorem c8_createPatientRecord_amended (st : ChainState) (hn pn : GoStr) :
    (mlook st.hospitals hn = none →
      CreatePatientRecord st hn pn = .error .notFound) ∧
    (∀ hosp, mlook st.hospitals hn = some hosp →
      ∃ st1 hosp1, CreatePatientRecord st hn pn = .ok st1 ∧
        mlook st1.hospitals hn = some hosp1 ∧
        mlook hosp1.Patients pn = some pn ∧
        CreatePatientRecord st1 hn pn = .ok st1) := by
  constructor
  · intro h
    simp [CreatePatientRecord, h]
  · intro hosp hh
    refine ⟨{ st with hospitals := (mins st.hospitals hn
        { hosp with Patients := mins hosp.Patients pn pn }) },
      { hosp with Patients := mins hosp.Patients pn pn }, ?_, ?_, ?_, ?_⟩
    · simp only [CreatePatientRecord, hh]
    · exact mlook_mins_self _ _ _
    · exact mlook_mins_self _ _ _
    · have hh1 := mlook_mins_self st.hospitals hn
        { hosp with Patients := mins hosp.Patients pn pn }
      simp only [CreatePatientRecord, hh1]
      rw [mins_eq_self _ _ _ (mlook_mins_self hosp.Patients pn pn)]
      rw [mins_eq_self _ _ _ hh1]

/-- Witness for the amended C8 at the concrete c8State. -/
theorem c8_witness :
    ∃ st1 hosp1, CreatePatientRecord c8State "H".toList "alice".toList = .ok st1 ∧
      mlook st1.hospitals "H".toList = some hosp1 ∧
      mlook hosp1.Patients "alice".toList = some "alice".toList ∧
      CreatePatientRecord st1 "H".toList "alice".toList = .ok st1 :=
  (c8_createPatientRecord_amended c8State "H".toList "alice".toList).2 _ rfl

/-- C9: in a hospital whose inventory entries all sit under their trace code
as key, as AddDrugToHospitalInventory stores them, and whose trace codes
differ from the drug names held in the inventory, BuyDrug for a drug name
that is present in some record nevertheless reports drug-not-available,
because its lookup uses the drug name as the map key. -/
theorem c9_keying_mismatch (st : ChainState) (pn hn dn : GoStr) (hosp : Hospital)
    (hh : mlook st.hospitals hn = some hosp)
    (hkey : ∀ e ∈ hosp.Inventory, e.1 = e.2.TraceCode)
    (hdiff : ∀ e ∈ hosp.Inventory, ∀ e2 ∈ hosp.Inventory, e.2.Name ≠ e2.2.TraceCode)
    (hpres : ∃ e ∈ hosp.Inventory, e.2.Name = dn) :
    BuyDrug st pn hn dn = .error .drugNotAvailable := by
  obtain ⟨e0, he0, hname⟩ := hpres
  have hnone : mlook hosp.Inventory dn = none := by
    rw [mlook_none_iff]
    intro e he
    rw [hkey e he]
    intro hc
    exact hdiff e0 he0 e he (by rw [hname, ← hc])
  simp [BuyDrug, hh, hnone]

/-- Witness for C9: a hospital holding one unit of drug a keyed by its trace
code tc refuses to sell drug a. -/
theorem c9_witness :
    BuyDrug ⟨[], [("H".toList, ⟨"H".toList, "c".toList, [], [("tc".toList,
        ⟨"a".toList, "tc".toList, "H".toList, true⟩)], [], []⟩)], []⟩
      "p".toList "H".toList "a".toList = .error .drugNotAvailable :=
  c9_keying_mismatch _ "p".toList "H".toList "a".toList _ rfl
    (by decide) (by decide)
    ⟨("tc".toList, ⟨"a".toList, "tc".toList, "H".toList, true⟩), by decide, by decide⟩

/-- C4 counterexample: the claim says TraceDrug never fails on a
syntactically valid code; in the source it fails with a not-found error when
no hospital inventory holds the code, here in the state with no hospitals at
all, on a code the decoder accepts. -/
theorem c4_counterexample :
    DecodeTraceCode "a-b-1-t-5".toList =
      .ok ("a".toList, "b".toList, mkRat 1 1, "t".toList) ∧
    TraceDrug emptyState "a-b-1-t-5".toList = .error .notFound :=
  ⟨rfl, rfl⟩

theorem invHasCode_true_iff (inv : List (GoStr × HospitalDrug)) (code : GoStr) :
    invHasCode inv code = true ↔ ∃ e ∈ inv, e.2.TraceCode = code := by
  induction inv with
  | nil =>
    constructor
    · intro h; simp [invHasCode] at h
    · rintro ⟨e, he, _⟩; cases he
  | cons e t ih =>
    by_cases h : e.2.TraceCode = code
    · constructor
      · intro _; exact ⟨e, List.mem_cons_self _ _, h⟩
      · intro _; simp [invHasCode, h]
    · constructor
      · intro hh
        have ht : invHasCode t code = true := by
          simpa [invHasCode, h] using hh
        obtain ⟨e2, he2, hc2⟩ := ih.mp ht
        exact ⟨e2, List.mem_cons_of_mem _ he2, hc2⟩
      · rintro ⟨e2, he2, hc2⟩
        rcases List.mem_cons.mp he2 with rfl | he2
        · exact absurd hc2 h
        · simpa [invHasCode, h] using ih.mpr ⟨e2, he2, hc2⟩

theorem findHospWithCode_none_iff (hs : List (GoStr × Hospital)) (code : GoStr) :
    findHospWithCode hs code = none ↔
      ∀ p ∈ hs, ∀ e ∈ p.2.Inventory, e.2.TraceCode ≠ code := by
  induction hs with
  | nil =>
    constructor
    · intro _ p hp; cases hp
    · intro _; rfl
  | cons p t ih =>
    obtain ⟨n0, h0⟩ := p
    by_cases h : invHasCode h0.Inventory code
    · rw [invHasCode_true_iff] at h
      obtain ⟨e, he, hc⟩ := h
      simp only [findHospWithCode, if_pos ((invHasCode_true_iff _ _).mpr ⟨e, he, hc⟩)]
      constructor
      · intro hh; cases hh
      · intro hall
        exact absurd hc (hall (n0, h0) (List.mem_cons_self _ _) e he)
    · have hfalse : invHasCode h0.Inventory code = false := by
        revert h; cases invHasCode h0.Inventory code <;> simp
      simp only [findHospWithCode, hfalse, Bool.false_eq_true, if_false, ih,
        List.mem_cons]
      constructor
      · intro hall p hp e he
        rcases hp with hp | hp
        · subst hp
          intro hc
          have := (invHasCode_true_iff h0.Inventory code).mpr ⟨e, he, hc⟩
          rw [hfalse] at this; cases this
        · exact hall p hp e he
      · intro hall p hp e he
        exact hall p (Or.inr hp) e he

/-- C4 amended: for a syntactically valid trace code, TraceDrug succeeds and
returns exactly the decoded provenance fields whenever some hospital
inventory still holds a record with that code — regardless of the record's
in-stock flag, so a unit resold to a patient is still found, since BuyDrug
keeps the sold record; when no hospital inventory holds the code (for
example a unit never transferred from its manufacturer) it fails with the
not-found error. -/
theorem c4_traceDrug_amended (st : ChainState) (code d mf : GoStr) (q : Rat)
    (pt : GoStr) (hdec : DecodeTraceCode code = .ok (d, mf, q, pt)) :
    ((∃ p ∈ st.hospitals, ∃ e ∈ p.2.Inventory, e.2.TraceCode = code) →
      ∃ hn, TraceDrug st code = .ok ⟨d, code, mf, q, pt, hn⟩) ∧
    ((∀ p ∈ st.hospitals, ∀ e ∈ p.2.Inventory, e.2.TraceCode ≠ code) →
      TraceDrug st code = .error .notFound) := by
  constructor
  · rintro ⟨p, hp, e, he, hc⟩
    have hfind : findHospWithCode st.hospitals code ≠ none := by
      rw [Ne, findHospWithCode_none_iff]
      intro hall
      exact hall p hp e he hc
    rcases hf : findHospWithCode st.hospitals code with _ | hn
    · exact absurd hf hfind
    · exact ⟨hn, by simp only [TraceDrug, hdec, hf]⟩
  · intro hall
    have hf : findHospWithCode st.hospitals code = none :=
      (findHospWithCode_none_iff _ _).mpr hall
    simp only [TraceDrug, hdec, hf]

/-- Witness for the amended C4: one hospital holding the unit of code
a-b-1-t-5 marked already sold (in-stock false); TraceDrug still returns the
decoded fields, and on the empty state the same code is reported not
found. -/
theorem c4_witness :
    (∃ hn, TraceDrug ⟨[], [("H".toList, ⟨"H".toList, "c".toList, [],
        [("a-b-1-t-5".toList, ⟨"a".toList, "a-b-1-t-5".toList, "H".toList, false⟩)],
        [], []⟩)], []⟩ "a-b-1-t-5".toList =
      .ok ⟨"a".toList, "a-b-1-t-5".toList, "b".toList, mkRat 1 1, "t".toList, hn⟩) ∧
    TraceDrug emptyState "a-b-1-t-5".toList = .error .notFound := by
  constructor
  · exact (c4_traceDrug_amended ⟨[], [("H".toList, ⟨"H".toList, "c".toList, [],
      [("a-b-1-t-5".toList, ⟨"a".toList, "a-b-1-t-5".toList, "H".toList, false⟩)],
      [], []⟩)], []⟩ "a-b-1-t-5".toList "a".toList "b".toList (mkRat 1 1) "t".toList
      rfl).1 ⟨("H".toList, ⟨"H".toList, "c".toList, [],
        [("a-b-1-t-5".toList, ⟨"a".toList, "a-b-1-t-5".toList, "H".toList, false⟩)],
        [], []⟩), by decide,
        ("a-b-1-t-5".toList, ⟨"a".toList, "a-b-1-t-5".toList, "H".toList, false⟩),
        by decide, by decide⟩
  · exact (c4_traceDrug_amended emptyState "a-b-1-t-5".toList "a".toList "b".toList
      (mkRat 1 1) "t".toList rfl).2 (by decide)

theorem mdel_key_not_mem {κ α : Type} [DecidableEq κ] (m : List (κ × α)) (k : κ)
    (hnodup : (m.map Prod.fst).Nodup) : ∀ e ∈ mdel m k, e.1 ≠ k := by
  induction m with
  | nil => intro e he; cases he
  | cons e' t ih =>
    obtain ⟨k', v'⟩ := e'
    simp only [List.map_cons, List.nodup_cons] at hnodup
    by_cases h0 : k' = k
    · subst h0
      intro e he hk
      have he' : e ∈ t := by simpa [mdel] using he
      exact hnodup.1 (hk ▸ List.mem_map.mpr ⟨e, he', rfl⟩)
    · intro e he hk
      rcases List.mem_cons.mp (by simpa [mdel, if_neg h0] using he) with rfl | he'
      · exact h0 hk
      · exact ih hnodup.2 e he' hk

/-- Run of the C2 scenario exactly as the claim words it: create manufacturer
M, produce drug Asp there (price 1, production time t, nonce 5) obtaining its
trace code, then remove that drug from the manufacturer inventory; the run
returns the produced trace code and the value returned by the removal. -/
def c2Run : Except Err (GoStr × GoStr) := do
  let st1 ← CreateManufacturer emptyState "M".toList "ct".toList
  let r1 ← ProduceDrug st1 "M".toList "Asp".toList 1 "t".toList 5
  let r2 ← RemoveDrugFromMnfcInventory r1.2 "M".toList "Asp".toList
  pure (r1.1, r2.1)

/-- C2 counterexample: after ProduceDrug creates the unit with trace code
Asp-M-1.00-t-5, RemoveDrugFromMnfcInventory returns the inventory key, which
under ProduceDrug's keying is the drug name Asp, not that trace code — the
claim asserts the removal returns the trace code. -/
theorem c2_counterexample :
    c2Run = .ok ("Asp-M-1.00-t-5".toList, "Asp".toList) ∧
    ("Asp".toList : GoStr) ≠ "Asp-M-1.00-t-5".toList :=
  ⟨rfl, by decide⟩

/-- C2 amended: when the unit sits in the manufacturer's inventory keyed by
its trace code c (as AddDrugToMnfcInventory stores units, the first
name-match in scan order, trace codes unique and keys distinct),
RemoveDrugFromMnfcInventory does return c and afterwards no record with
trace code c remains in that inventory; AddDrugToHospitalInventory with c
then stores the unit at the hospital under key c, in stock, with its stored
trace code still c. When the unit was instead inserted by ProduceDrug, which
keys the inventory by drug name, the removal returns the drug name rather
than c. -/
theorem c2_transfer_amended (st : ChainState) (mn hn dn c : GoStr)
    (m : Manufacturer) (drug : ManufacturerDrug)
    (hm : mlook st.manufacturers mn = some m)
    (hfind : mfindByName m.Inventory dn = some (c, drug))
    (huniqc : ∀ e ∈ m.Inventory, e.2.TraceCode = c → e.1 = c)
    (hnodup : (m.Inventory.map Prod.fst).Nodup) :
    ∃ st1, RemoveDrugFromMnfcInventory st mn dn = .ok (c, st1) ∧
      (∀ m1, mlook st1.manufacturers mn = some m1 →
        ∀ e ∈ m1.Inventory, e.2.TraceCode ≠ c) ∧
      st1.hospitals = st.hospitals ∧
      (∀ hosp, mlook st1.hospitals hn = some hosp →
        ∃ st2, AddDrugToHospitalInventory st1 hn dn c = .ok st2 ∧
          ∃ hosp2, mlook st2.hospitals hn = some hosp2 ∧
            mlook hosp2.Inventory c = some ⟨dn, c, hn, true⟩) := by
  simp only [RemoveDrugFromMnfcInventory, hm, hfind]
  refine ⟨_, rfl, ?_, rfl, ?_⟩
  · intro m1 hm1 e he hc2
    have hself := mlook_mins_self st.manufacturers mn
      { m with Inventory := mdel m.Inventory c }
    rw [hself] at hm1
    cases hm1
    have hkey := huniqc e (mem_of_mem_mdel _ _ _ he) hc2
    exact mdel_key_not_mem m.Inventory c hnodup e he hkey
  · intro hosp hhosp
    simp only [AddDrugToHospitalInventory, hhosp]
    refine ⟨_, rfl, _, mlook_mins_self _ _ _, ?_⟩
    exact mlook_mins_self _ _ _

/-- Witness for the amended C2: manufacturer M holds one unit of drug Asp
keyed by its trace code tc; the removal returns tc, and adding to hospital H
stores the unit there under tc, in stock. -/
theorem c2_witness :
    ∃ st1, RemoveDrugFromMnfcInventory
        ⟨[("M".toList, ⟨"M".toList, [("tc".toList,
            ⟨"Asp".toList, "tc".toList, "M".toList, 1, "t".toList, true⟩)],
          "ct".toList, []⟩)],
         [("H".toList, ⟨"H".toList, "c".toList, [], [], [], []⟩)], []⟩
        "M".toList "Asp".toList = .ok ("tc".toList, st1) ∧
      (∀ m1, mlook st1.manufacturers "M".toList = some m1 →
        ∀ e ∈ m1.Inventory, e.2.TraceCode ≠ "tc".toList) ∧
      st1.hospitals = [("H".toList, ⟨"H".toList, "c".toList, [], [], [], []⟩)] ∧
      (∀ hosp, mlook st1.hospitals "H".toList = some hosp →
        ∃ st2, AddDrugToHospitalInventory st1 "H".toList "Asp".toList "tc".toList
            = .ok st2 ∧
          ∃ hosp2, mlook st2.hospitals "H".toList = some hosp2 ∧
            mlook hosp2.Inventory "tc".toList =
              some ⟨"Asp".toList, "tc".toList, "H".toList, true⟩) :=
  c2_transfer_amended
    ⟨[("M".toList, ⟨"M".toList, [("tc".toList,
        ⟨"Asp".toList, "tc".toList, "M".toList, 1, "t".toList, true⟩)],
      "ct".toList, []⟩)],
     [("H".toList, ⟨"H".toList, "c".toList, [], [], [], []⟩)], []⟩
    "M".toList "H".toList "Asp".toList "tc".toList _ _
    rfl rfl (by decide) (by decide)

end Fabric
